import Mathlib

/-!
Shallow embedding of the Harmonia clinic booking server (server.js).

The server persists a single JSON document `{ bookings: [...] }`. Each HTTP
handler re-reads that document, computes, optionally rewrites it whole, and
responds. We model the persisted file as a `FileState`: either a well-formed
document (`good`) or an unreadable one (`bad`: the file is missing,
unreadable, or holds invalid JSON, all of which make `readBookings`'s
`try` block throw). Persistence success of `saveBookings` (`fs.writeFileSync`
succeeding) is an explicit boolean input of each mutating handler, as are the
`Date.now()` reading, the `new Date().toISOString()` string, and the
transport outcome of each fire-and-forget email send.

JavaScript's falsiness test `!x` on the request's string fields is modelled
by comparison with `""`: an absent field and an empty string are both falsy,
so `""` faithfully stands for both.
-/

namespace Harmonia

/-- One stored booking, mirroring the object literal built in
`POST /api/bookings` (fields `id, firstName, lastName, email, phone, service,
date, time, notes, price, createdAt`). -/
structure Booking where
  id : String
  firstName : String
  lastName : String
  email : String
  phone : String
  service : String
  date : String
  time : String
  notes : String
  price : String
  createdAt : String
deriving DecidableEq, Repr

/-- The persisted document `{ bookings: [...] }`. -/
structure BookingsData where
  bookings : List Booking
deriving DecidableEq, Repr

/-- The state of the bookings file: `good d` when reading and parsing yields
`d`; `bad` when the file is missing, unreadable, or invalid JSON (the cases
where `readFileSync` or `JSON.parse` throws). -/
inductive FileState where
  | good : BookingsData → FileState
  | bad : FileState
deriving DecidableEq, Repr

/-- `readBookings()`: returns the parsed document, or `{ bookings: [] }`
when the read or parse throws (the `catch` branch). -/
def readBookings : FileState → BookingsData
  | .good d => d
  | .bad => ⟨[]⟩

/-- The fixed slot list `allTimeSlots` of the `GET /api/available-times`
handler. -/
def allTimeSlots : List String :=
  ["08:00", "09:00", "10:00", "11:00", "12:00",
   "13:00", "14:00", "15:00", "16:00", "17:00", "18:00"]

/-- `isTimeSlotAvailable(date, time)`: re-reads the store and returns the
negation of `bookings.find(b => b.date === date && b.time === time)`. -/
def isTimeSlotAvailable (fs : FileState) (date time : String) : Bool :=
  let data := readBookings fs
  (data.bookings.find? (fun b => b.date == date && b.time == time)).isNone

/-- Response of `GET /api/available-times`: `400` when the `date` query
parameter is falsy, otherwise `200 { date, availableTimes, bookedTimes }`. -/
inductive AvailResp where
  | missingDate : AvailResp
  | ok : String → List String → List String → AvailResp
deriving DecidableEq, Repr

/-- HTTP status of an `AvailResp`. -/
def AvailResp.statusCode : AvailResp → Nat
  | .missingDate => 400
  | .ok _ _ _ => 200

/-- The `GET /api/available-times` handler: reject a falsy date, otherwise
filter the booked times of that date out of `allTimeSlots`. -/
def getAvailableTimes (fs : FileState) (date : String) : AvailResp :=
  if date = "" then .missingDate
  else
    let data := readBookings fs
    let bookedTimes := (data.bookings.filter (fun b => b.date == date)).map (fun b => b.time)
    let availableTimes := allTimeSlots.filter (fun t => !(bookedTimes.contains t))
    .ok date availableTimes bookedTimes

/-- The request body of `POST /api/bookings`. `""` models a missing or empty
field (both are falsy in the handler's validation). `notes` and `price` are
optional; the handler replaces a falsy value by `''`, which on this model is
the identity. -/
structure BookingRequest where
  firstName : String
  lastName : String
  email : String
  phone : String
  service : String
  date : String
  time : String
  notes : String
  price : String
deriving DecidableEq, Repr

/-- The handler's validation test
`!firstName || !lastName || !email || !phone || !service || !date || !time`. -/
def missingRequired (r : BookingRequest) : Bool :=
  r.firstName == "" || r.lastName == "" || r.email == "" || r.phone == ""
    || r.service == "" || r.date == "" || r.time == ""

/-- The `newBooking` object: id is `Date.now().toString()`, `createdAt` is
`new Date().toISOString()`; both clock readings are inputs here. -/
def mkNewBooking (r : BookingRequest) (now : Nat) (nowIso : String) : Booking :=
  { id := toString now
    firstName := r.firstName
    lastName := r.lastName
    email := r.email
    phone := r.phone
    service := r.service
    date := r.date
    time := r.time
    notes := r.notes
    price := r.price
    createdAt := nowIso }

/-- The trimmed `booking` object of the `201` response body. -/
structure ConfirmationView where
  id : String
  date : String
  time : String
  service : String
deriving DecidableEq, Repr

/-- Response of `POST /api/bookings`. -/
inductive CreateResp where
  | validationError : CreateResp
  | conflict : CreateResp
  | saveError : CreateResp
  | created : ConfirmationView → CreateResp
deriving DecidableEq, Repr

/-- HTTP status of a `CreateResp`, as set by `res.status(...)`. -/
def CreateResp.statusCode : CreateResp → Nat
  | .validationError => 400
  | .conflict => 409
  | .saveError => 500
  | .created _ => 201

/-- Log entry of one fire-and-forget email send (success or failure is only
logged by the handler, via `console.log` / `console.error`). -/
inductive EmailEvent where
  | clinicSent : EmailEvent
  | clinicFailed : EmailEvent
  | clientSent : EmailEvent
  | clientFailed : EmailEvent
deriving DecidableEq, Repr

/-- `sendClinicNotification(booking)`: resolves `true` and logs success when
the transport delivers, resolves `false` and logs the error otherwise. -/
def sendClinicNotification (_booking : Booking) (transportOk : Bool) : Bool × EmailEvent :=
  if transportOk then (true, .clinicSent) else (false, .clinicFailed)

/-- `sendClientConfirmation(booking)`: same shape as the clinic send. -/
def sendClientConfirmation (_booking : Booking) (transportOk : Bool) : Bool × EmailEvent :=
  if transportOk then (true, .clientSent) else (false, .clientFailed)

/-- Everything a run of the `POST /api/bookings` handler produces: the HTTP
response, the resulting file state, and the email log entries. -/
structure CreateOutcome where
  resp : CreateResp
  fileState : FileState
  emailLog : List EmailEvent
deriving DecidableEq, Repr

/-- The `POST /api/bookings` handler: validate, re-check availability, build
`newBooking`, push and save, then fire both email sends without awaiting
them and answer `201` with the trimmed view. On a failed save the file is
left as it was and the handler answers `500` before any send. -/
def postBooking (fs : FileState) (r : BookingRequest) (now : Nat) (nowIso : String)
    (saveOk clinicTransportOk clientTransportOk : Bool) : CreateOutcome :=
  if missingRequired r then
    ⟨.validationError, fs, []⟩
  else if !(isTimeSlotAvailable fs r.date r.time) then
    ⟨.conflict, fs, []⟩
  else
    let newBooking := mkNewBooking r now nowIso
    let data := readBookings fs
    let data2 : BookingsData := ⟨data.bookings ++ [newBooking]⟩
    if !saveOk then
      ⟨.saveError, fs, []⟩
    else
      let clinicResult := sendClinicNotification newBooking clinicTransportOk
      let clientResult := sendClientConfirmation newBooking clientTransportOk
      ⟨.created ⟨newBooking.id, newBooking.date, newBooking.time, newBooking.service⟩,
        .good data2, [clinicResult.2, clientResult.2]⟩

/-- The `GET /api/bookings` handler body: `res.json(data.bookings)`. -/
def listBookings (fs : FileState) : List Booking :=
  (readBookings fs).bookings

/-- Response of `DELETE /api/bookings/:id`. -/
inductive DeleteResp where
  | notFound : DeleteResp
  | deleted : DeleteResp
deriving DecidableEq, Repr

/-- HTTP status of a `DeleteResp`. -/
def DeleteResp.statusCode : DeleteResp → Nat
  | .notFound => 404
  | .deleted => 200

/-- The `DELETE /api/bookings/:id` handler: `findIndex` on the id, `404` when
absent; otherwise `splice` the entry out and call `saveBookings`. The handler
ignores the boolean `saveBookings` returns, so it answers `200` either way;
only the persisted file reflects whether the save succeeded. -/
def deleteBooking (fs : FileState) (id : String) (saveOk : Bool) : DeleteResp × FileState :=
  let data := readBookings fs
  match data.bookings.findIdx? (fun b => b.id == id) with
  | none => (.notFound, fs)
  | some i =>
    let data2 : BookingsData := ⟨data.bookings.eraseIdx i⟩
    (.deleted, if saveOk then .good data2 else fs)

/-- One sequentially executed mutating operation, with its environment inputs
(clock readings, save success, email transport outcomes). -/
inductive Op where
  | create : BookingRequest → Nat → String → Bool → Bool → Bool → Op
  | del : String → Bool → Op
deriving DecidableEq, Repr

/-- Effect of one operation on the persisted file. -/
def applyOp (fs : FileState) : Op → FileState
  | .create r now nowIso s c1 c2 => (postBooking fs r now nowIso s c1 c2).fileState
  | .del id s => (deleteBooking fs id s).2

/-- Sequential execution of a list of operations. -/
def runOps : FileState → List Op → FileState
  | fs, [] => fs
  | fs, op :: ops => runOps (applyOp fs op) ops

/-- The integrity invariant: at most one stored booking per (date, time)
pair. -/
def SlotUnique (bs : List Booking) : Prop :=
  bs.Pairwise (fun a b => ¬(a.date = b.date ∧ a.time = b.time))

/-- Availability as the spec words it (for refinement comparison with the
handler): keep exactly the fixed labels that no booking of this date holds. -/
def specAvailable (date : String) (bs : List Booking) : List String :=
  allTimeSlots.filter (fun t => decide (∀ b ∈ bs, b.date = date → b.time ≠ t))

/-! ### Availability (claim C1) -/

lemma bookedTimes_contains_iff (date t : String) (bs : List Booking) :
    ((bs.filter (fun b => b.date == date)).map (fun b => b.time)).contains t = true ↔
      ∃ b ∈ bs, b.date = date ∧ b.time = t := by
  simp only [List.contains_iff_exists_mem_beq, List.mem_map, List.mem_filter, beq_iff_eq]
  constructor
  · rintro ⟨x, ⟨b, ⟨hb, hbd⟩, hbt⟩, hx⟩
    exact ⟨b, hb, hbd, hbt.trans hx.symm⟩
  · rintro ⟨b, hb, hbd, hbt⟩
    exact ⟨t, ⟨b, ⟨hb, hbd⟩, hbt⟩, rfl⟩

lemma availableTimes_eq_spec (date : String) (bs : List Booking) :
    allTimeSlots.filter
        (fun t => !(((bs.filter (fun b => b.date == date)).map (fun b => b.time)).contains t)) =
      specAvailable date bs := by
  unfold specAvailable
  apply List.filter_congr
  intro t _
  by_cases hp : ∀ b ∈ bs, b.date = date → b.time ≠ t
  · have hcf : ((bs.filter (fun b => b.date == date)).map (fun b => b.time)).contains t = false := by
      apply Bool.eq_false_iff.mpr
      rw [Ne, bookedTimes_contains_iff]
      rintro ⟨b, hb, hbd, hbt⟩
      exact hp b hb hbd hbt
    rw [hcf, decide_eq_true hp]
    rfl
  · have hex : ∃ b ∈ bs, b.date = date ∧ b.time = t := by
      push_neg at hp
      exact hp
    have hct := (bookedTimes_contains_iff date t bs).mpr hex
    rw [hct, decide_eq_false hp]
    rfl

/-- Claim C1: for every non-missing date string and every stored collection,
the availability handler answers with exactly the fixed ordered slot list
with every label removed that some booking of that date holds (a filter of
`allTimeSlots`, so the fixed order is preserved); for a date with zero
bookings it answers with all 11 labels in fixed order. -/
theorem availability_matches_spec (date : String) (d : BookingsData) (hd : date ≠ "") :
    (∃ bt, getAvailableTimes (.good d) date = .ok date (specAvailable date d.bookings) bt) ∧
    ((∀ b ∈ d.bookings, b.date ≠ date) →
      getAvailableTimes (.good d) date = .ok date allTimeSlots []) := by
  constructor
  · refine ⟨(d.bookings.filter (fun b => b.date == date)).map (fun b => b.time), ?_⟩
    simp only [getAvailableTimes, if_neg hd, readBookings]
    rw [availableTimes_eq_spec]
  · intro h
    have hfil : d.bookings.filter (fun b => b.date == date) = [] := by
      rw [List.filter_eq_nil_iff]
      intro b hb
      simp only [beq_iff_eq]
      exact h b hb
    simp [getAvailableTimes, if_neg hd, readBookings, hfil]

/-- Witness for C1 at a concrete date and the empty store. -/
theorem availability_matches_spec_witness :
    ("2025-03-10" ≠ "") ∧
    ((∃ bt, getAvailableTimes (.good ⟨[]⟩) "2025-03-10" =
        .ok "2025-03-10" (specAvailable "2025-03-10" []) bt) ∧
      ((∀ b ∈ ([] : List Booking), b.date ≠ "2025-03-10") →
        getAvailableTimes (.good ⟨[]⟩) "2025-03-10" = .ok "2025-03-10" allTimeSlots [])) := by
  refine ⟨by decide, ?_⟩
  have := availability_matches_spec "2025-03-10" ⟨[]⟩ (by decide)
  simpa using this

/-! ### Booking creation (claims C2, C3, C5, C8) -/

lemma isTimeSlotAvailable_iff (fs : FileState) (date time : String) :
    isTimeSlotAvailable fs date time = true ↔
      ∀ b ∈ (readBookings fs).bookings, ¬(b.date = date ∧ b.time = time) := by
  simp [isTimeSlotAvailable, Option.isNone_iff_eq_none, List.find?_eq_none]

lemma missingRequired_true_iff (r : BookingRequest) :
    missingRequired r = true ↔
      (r.firstName = "" ∨ r.lastName = "" ∨ r.email = "" ∨ r.phone = "" ∨
       r.service = "" ∨ r.date = "" ∨ r.time = "") := by
  simp only [missingRequired, Bool.or_eq_true, beq_iff_eq]
  tauto

lemma readBookings_good (d : BookingsData) : readBookings (.good d) = d := rfl

lemma time_not_available_after (bs : List Booking) (nb : Booking) (date : String)
    (hd : date ≠ "") (hnb : nb.date = date) :
    ∃ ts bt, getAvailableTimes (.good ⟨bs ++ [nb]⟩) date = .ok date ts bt ∧ nb.time ∉ ts := by
  have hgat : getAvailableTimes (.good ⟨bs ++ [nb]⟩) date =
      .ok date
        (allTimeSlots.filter (fun t =>
          !((((bs ++ [nb]).filter (fun b => b.date == date)).map (fun b => b.time)).contains t)))
        (((bs ++ [nb]).filter (fun b => b.date == date)).map (fun b => b.time)) := by
    unfold getAvailableTimes
    rw [if_neg hd]
    rfl
  refine ⟨_, _, hgat, ?_⟩
  intro hmem
  rw [List.mem_filter] at hmem
  have hcontains : (((bs ++ [nb]).filter (fun b => b.date == date)).map
      (fun b => b.time)).contains nb.time = true := by
    rw [List.contains_iff_exists_mem_beq]
    refine ⟨nb.time, List.mem_map.mpr ⟨nb, List.mem_filter.mpr
      ⟨List.mem_append_right _ (List.mem_singleton.mpr rfl), ?_⟩, rfl⟩, beq_self_eq_true _⟩
    rw [hnb]
    exact beq_self_eq_true date
  rw [hcontains] at hmem
  simp at hmem

lemma missingRequired_false_iff (r : BookingRequest) :
    missingRequired r = false ↔
      (r.firstName ≠ "" ∧ r.lastName ≠ "" ∧ r.email ≠ "" ∧ r.phone ≠ "" ∧
       r.service ≠ "" ∧ r.date ≠ "" ∧ r.time ≠ "") := by
  rw [← Bool.not_eq_true, missingRequired_true_iff]
  tauto

lemma postBooking_success_eq (fs : FileState) (r : BookingRequest) (now : Nat)
    (nowIso : String) (cl1 cl2 : Bool)
    (hv : missingRequired r = false)
    (ha : isTimeSlotAvailable fs r.date r.time = true) :
    postBooking fs r now nowIso true cl1 cl2 =
      ⟨.created ⟨toString now, r.date, r.time, r.service⟩,
       .good ⟨(readBookings fs).bookings ++ [mkNewBooking r now nowIso]⟩,
       [(sendClinicNotification (mkNewBooking r now nowIso) cl1).2,
        (sendClientConfirmation (mkNewBooking r now nowIso) cl2).2]⟩ := by
  simp [postBooking, hv, ha, mkNewBooking]

/-- Claim C2: a request with all required fields non-empty whose (date, time)
pair matches no stored booking, handled while the save succeeds, is answered
`201` with a trimmed confirmation view holding exactly id, date, time and
service; the booking is appended at the end of the stored collection; and a
subsequent availability query for that date excludes that time. -/
theorem createBooking_success (fs : FileState) (r : BookingRequest) (now : Nat)
    (nowIso : String) (cl1 cl2 : Bool)
    (hv : missingRequired r = false)
    (hfree : ∀ b ∈ (readBookings fs).bookings, ¬(b.date = r.date ∧ b.time = r.time)) :
    (postBooking fs r now nowIso true cl1 cl2).resp =
        .created ⟨toString now, r.date, r.time, r.service⟩ ∧
    (postBooking fs r now nowIso true cl1 cl2).resp.statusCode = 201 ∧
    (postBooking fs r now nowIso true cl1 cl2).fileState =
        .good ⟨(readBookings fs).bookings ++ [mkNewBooking r now nowIso]⟩ ∧
    (∃ ts bt, getAvailableTimes (postBooking fs r now nowIso true cl1 cl2).fileState r.date =
        .ok r.date ts bt ∧ r.time ∉ ts) := by
  have ha : isTimeSlotAvailable fs r.date r.time = true :=
    (isTimeSlotAvailable_iff fs r.date r.time).mpr hfree
  have heq := postBooking_success_eq fs r now nowIso cl1 cl2 hv ha
  have hdate : r.date ≠ "" := ((missingRequired_false_iff r).mp hv).2.2.2.2.2.1
  refine ⟨by rw [heq], by rw [heq]; rfl, by rw [heq], ?_⟩
  rw [heq]
  exact time_not_available_after (readBookings fs).bookings (mkNewBooking r now nowIso)
    r.date hdate rfl

/-- Witness for C2 at a concrete request and the empty store. -/
theorem createBooking_success_witness :
    missingRequired ⟨"Anna", "Nowak", "a@ex.pl", "123", "Masaz", "2025-03-10", "09:00", "", ""⟩
        = false ∧
    ((postBooking (.good ⟨[]⟩)
        ⟨"Anna", "Nowak", "a@ex.pl", "123", "Masaz", "2025-03-10", "09:00", "", ""⟩
        1700000000000 "2025-03-01T10:00:00.000Z" true true true).resp =
      .created ⟨toString 1700000000000, "2025-03-10", "09:00", "Masaz"⟩) := by
  constructor
  · decide
  · exact (createBooking_success (.good ⟨[]⟩)
      ⟨"Anna", "Nowak", "a@ex.pl", "123", "Masaz", "2025-03-10", "09:00", "", ""⟩
      1700000000000 "2025-03-01T10:00:00.000Z" true true (by decide)
      (by intro b hb; simp [readBookings] at hb)).1

/-- Claim C3: a request with all required fields non-empty whose (date, time)
pair equals that of an already stored booking is answered with a `409`
conflict, and the store, the file state and the email log are untouched. -/
theorem createBooking_conflict (fs : FileState) (r : BookingRequest) (now : Nat)
    (nowIso : String) (saveOk cl1 cl2 : Bool)
    (hv : missingRequired r = false)
    (htaken : ∃ b ∈ (readBookings fs).bookings, b.date = r.date ∧ b.time = r.time) :
    postBooking fs r now nowIso saveOk cl1 cl2 = ⟨.conflict, fs, []⟩ ∧
    (postBooking fs r now nowIso saveOk cl1 cl2).resp.statusCode = 409 := by
  have ha : isTimeSlotAvailable fs r.date r.time = false := by
    apply Bool.eq_false_iff.mpr
    rw [Ne, isTimeSlotAvailable_iff]
    rcases htaken with ⟨b, hb, hbd, hbt⟩
    intro hall
    exact hall b hb ⟨hbd, hbt⟩
  have heq : postBooking fs r now nowIso saveOk cl1 cl2 = ⟨.conflict, fs, []⟩ := by
    simp [postBooking, hv, ha]
  exact ⟨heq, by rw [heq]; rfl⟩

/-- Witness for C3: booking the slot of the sample store's booking. -/
theorem createBooking_conflict_witness :
    missingRequired ⟨"Jan", "Kowal", "j@ex.pl", "456", "Terapia", "2025-03-10", "09:00", "", ""⟩
        = false ∧
    postBooking
        (.good ⟨[⟨"1", "Anna", "Nowak", "a@ex.pl", "123", "Masaz", "2025-03-10", "09:00",
          "", "", "2025-03-01T10:00:00.000Z"⟩]⟩)
        ⟨"Jan", "Kowal", "j@ex.pl", "456", "Terapia", "2025-03-10", "09:00", "", ""⟩
        1700000000001 "iso" true true true =
      ⟨.conflict,
        .good ⟨[⟨"1", "Anna", "Nowak", "a@ex.pl", "123", "Masaz", "2025-03-10", "09:00",
          "", "", "2025-03-01T10:00:00.000Z"⟩]⟩, []⟩ := by
  constructor
  · decide
  · exact (createBooking_conflict _ _ 1700000000001 "iso" true true true (by decide)
      ⟨⟨"1", "Anna", "Nowak", "a@ex.pl", "123", "Masaz", "2025-03-10", "09:00",
        "", "", "2025-03-01T10:00:00.000Z"⟩, List.mem_singleton.mpr rfl, rfl, rfl⟩).1

/-- Claim C5: the handler answers `400` exactly when some required field is
missing or empty; in that case nothing is stored, no email is attempted, and
no conflict or server-error outcome is produced. -/
theorem createBooking_validation (fs : FileState) (r : BookingRequest) (now : Nat)
    (nowIso : String) (saveOk cl1 cl2 : Bool) :
    ((postBooking fs r now nowIso saveOk cl1 cl2).resp = .validationError ↔
      (r.firstName = "" ∨ r.lastName = "" ∨ r.email = "" ∨ r.phone = "" ∨
       r.service = "" ∨ r.date = "" ∨ r.time = "")) ∧
    ((r.firstName = "" ∨ r.lastName = "" ∨ r.email = "" ∨ r.phone = "" ∨
       r.service = "" ∨ r.date = "" ∨ r.time = "") →
      postBooking fs r now nowIso saveOk cl1 cl2 = ⟨.validationError, fs, []⟩) := by
  by_cases hm : missingRequired r = true
  · have heq : postBooking fs r now nowIso saveOk cl1 cl2 = ⟨.validationError, fs, []⟩ := by
      simp [postBooking, hm]
    refine ⟨⟨fun _ => (missingRequired_true_iff r).mp hm, fun _ => by rw [heq]⟩, fun _ => heq⟩
  · have hm' : missingRequired r = false := Bool.eq_false_iff.mpr hm
    have hnot : ¬(r.firstName = "" ∨ r.lastName = "" ∨ r.email = "" ∨ r.phone = "" ∨
        r.service = "" ∨ r.date = "" ∨ r.time = "") := by
      rw [← missingRequired_true_iff]
      simp [hm']
    refine ⟨⟨fun hresp => absurd ?_ hnot, fun h => absurd h hnot⟩, fun h => absurd h hnot⟩
    exfalso
    by_cases ha : isTimeSlotAvailable fs r.date r.time = true
    · by_cases hs : saveOk = true
      · rw [hs] at hresp
        rw [postBooking_success_eq fs r now nowIso cl1 cl2 hm' ha] at hresp
        exact CreateResp.noConfusion hresp
      · have hs' : saveOk = false := Bool.eq_false_iff.mpr hs
        have : postBooking fs r now nowIso saveOk cl1 cl2 = ⟨.saveError, fs, []⟩ := by
          simp [postBooking, hm', ha, hs']
        rw [this] at hresp
        exact CreateResp.noConfusion hresp
    · have ha' : isTimeSlotAvailable fs r.date r.time = false := Bool.eq_false_iff.mpr ha
      have : postBooking fs r now nowIso saveOk cl1 cl2 = ⟨.conflict, fs, []⟩ := by
        simp [postBooking, hm', ha']
      rw [this] at hresp
      exact CreateResp.noConfusion hresp

/-- Witness for C5: a request with an empty first name is rejected with a
validation error and nothing changes. -/
theorem createBooking_validation_witness :
    ((postBooking (.good ⟨[]⟩) ⟨"", "Nowak", "a@ex.pl", "123", "Masaz", "2025-03-10",
        "09:00", "", ""⟩ 5 "iso" true true true).resp = .validationError) ∧
    (postBooking (.good ⟨[]⟩) ⟨"", "Nowak", "a@ex.pl", "123", "Masaz", "2025-03-10",
        "09:00", "", ""⟩ 5 "iso" true true true) = ⟨.validationError, .good ⟨[]⟩, []⟩ := by
  have h := createBooking_validation (.good ⟨[]⟩)
    ⟨"", "Nowak", "a@ex.pl", "123", "Masaz", "2025-03-10", "09:00", "", ""⟩
    5 "iso" true true true
  exact ⟨h.1.mpr (Or.inl rfl), h.2 (Or.inl rfl)⟩

/-- Claim C8: the HTTP response and the persisted file after
`POST /api/bookings` are identical in any two runs that differ only in the
transport outcomes of the clinic and client email sends; only the log
differs. -/
theorem email_outcomes_unobservable (fs : FileState) (r : BookingRequest) (now : Nat)
    (nowIso : String) (saveOk a1 b1 a2 b2 : Bool) :
    (postBooking fs r now nowIso saveOk a1 b1).resp =
        (postBooking fs r now nowIso saveOk a2 b2).resp ∧
    (postBooking fs r now nowIso saveOk a1 b1).fileState =
        (postBooking fs r now nowIso saveOk a2 b2).fileState := by
  by_cases hm : missingRequired r = true
  · simp [postBooking, hm]
  · have hm' : missingRequired r = false := Bool.eq_false_iff.mpr hm
    by_cases ha : isTimeSlotAvailable fs r.date r.time = true
    · by_cases hs : saveOk = true
      · subst hs
        rw [postBooking_success_eq fs r now nowIso a1 b1 hm' ha,
          postBooking_success_eq fs r now nowIso a2 b2 hm' ha]
        exact ⟨rfl, rfl⟩
      · have hs' : saveOk = false := Bool.eq_false_iff.mpr hs
        simp [postBooking, hm', ha, hs']
    · have ha' : isTimeSlotAvailable fs r.date r.time = false := Bool.eq_false_iff.mpr ha
      simp [postBooking, hm', ha']

/-! ### Deletion (claims C6, C7) -/

lemma deleteBooking_eq_notFound (fs : FileState) (id : String) (saveOk : Bool)
    (h : ∀ b ∈ (readBookings fs).bookings, b.id ≠ id) :
    deleteBooking fs id saveOk = (.notFound, fs) := by
  have hidx : (readBookings fs).bookings.findIdx? (fun b => b.id == id) = none := by
    rw [List.findIdx?_eq_none_iff]
    intro b hb
    simp [h b hb]
  simp only [deleteBooking, hidx]

lemma deleteBooking_eq_found (fs : FileState) (id : String) (saveOk : Bool) (i : Nat)
    (hidx : (readBookings fs).bookings.findIdx? (fun b => b.id == id) = some i) :
    deleteBooking fs id saveOk =
      (.deleted, if saveOk then .good ⟨(readBookings fs).bookings.eraseIdx i⟩ else fs) := by
  simp only [deleteBooking, hidx]

lemma eraseIdx_found_id_free (bs : List Booking) (id : String)
    (hnodup : (bs.map Booking.id).Nodup) (i : Nat)
    (hi : bs.findIdx? (fun b => b.id == id) = some i) :
    ∀ b ∈ bs.eraseIdx i, b.id ≠ id := by
  induction bs generalizing i with
  | nil => simp at hi
  | cons a t ih =>
    rw [List.findIdx?_cons] at hi
    rw [List.map_cons, List.nodup_cons] at hnodup
    by_cases ha : (a.id == id) = true
    · rw [if_pos ha] at hi
      have h0 : i = 0 := (Option.some.inj hi).symm
      subst h0
      intro b hb hbid
      apply hnodup.1
      have haid : a.id = id := beq_iff_eq.mp ha
      rw [haid, ← hbid]
      exact List.mem_map.mpr ⟨b, hb, rfl⟩
    · rw [if_neg ha] at hi
      rw [List.findIdx?_succ] at hi
      rcases Option.map_eq_some'.mp hi with ⟨j, hj, hji⟩
      subst hji
      rw [List.eraseIdx_cons_succ]
      intro b hb
      rcases List.mem_cons.mp hb with hba | hbt
      · subst hba
        exact beq_eq_false_iff_ne.mp (Bool.eq_false_iff.mpr ha)
      · exact ih hnodup.2 j hj b hbt

/-- Claim C7: with unique stored ids and a succeeding save, deleting an id
held by no stored booking answers `404` and leaves everything unchanged;
deleting a stored id answers `200` and no booking with that id remains in
any subsequent listing. -/
theorem deleteBooking_spec (fs : FileState) (id : String)
    (hnodup : ((readBookings fs).bookings.map Booking.id).Nodup) :
    ((∀ b ∈ (readBookings fs).bookings, b.id ≠ id) →
      deleteBooking fs id true = (.notFound, fs) ∧
      (deleteBooking fs id true).1.statusCode = 404) ∧
    ((∃ b ∈ (readBookings fs).bookings, b.id = id) →
      (deleteBooking fs id true).1 = .deleted ∧
      (deleteBooking fs id true).1.statusCode = 200 ∧
      ∀ b ∈ listBookings (deleteBooking fs id true).2, b.id ≠ id) := by
  constructor
  · intro h
    have heq := deleteBooking_eq_notFound fs id true h
    exact ⟨heq, by rw [heq]; rfl⟩
  · rintro ⟨b, hb, hbid⟩
    have hne : (readBookings fs).bookings.findIdx? (fun b => b.id == id) ≠ none := by
      rw [Ne, List.findIdx?_eq_none_iff]
      intro hall
      have := hall b hb
      rw [hbid] at this
      simp at this
    rcases Option.ne_none_iff_exists'.mp hne with ⟨i, hi⟩
    have heq := deleteBooking_eq_found fs id true i hi
    rw [heq]
    refine ⟨rfl, rfl, ?_⟩
    intro b' hb'
    exact eraseIdx_found_id_free (readBookings fs).bookings id hnodup i hi b' hb'

/-- Witness for C7 on a one-booking store: deleting a missing id is a `404`,
deleting the stored id removes it. -/
theorem deleteBooking_spec_witness :
    ((([⟨"1", "Anna", "Nowak", "a@ex.pl", "123", "Masaz", "2025-03-10", "09:00",
        "", "", "iso"⟩] : List Booking).map Booking.id).Nodup ∧
      deleteBooking (.good ⟨[⟨"1", "Anna", "Nowak", "a@ex.pl", "123", "Masaz", "2025-03-10",
        "09:00", "", "", "iso"⟩]⟩) "2" true =
        (.notFound, .good ⟨[⟨"1", "Anna", "Nowak", "a@ex.pl", "123", "Masaz", "2025-03-10",
          "09:00", "", "", "iso"⟩]⟩)) ∧
    ((deleteBooking (.good ⟨[⟨"1", "Anna", "Nowak", "a@ex.pl", "123", "Masaz", "2025-03-10",
        "09:00", "", "", "iso"⟩]⟩) "1" true).1 = .deleted ∧
      ∀ b ∈ listBookings (deleteBooking (.good ⟨[⟨"1", "Anna", "Nowak", "a@ex.pl", "123",
        "Masaz", "2025-03-10", "09:00", "", "", "iso"⟩]⟩) "1" true).2, b.id ≠ "1") := by
  refine ⟨⟨by decide, ?_⟩, ?_⟩
  · exact ((deleteBooking_spec (.good ⟨[⟨"1", "Anna", "Nowak", "a@ex.pl", "123", "Masaz",
      "2025-03-10", "09:00", "", "", "iso"⟩]⟩) "2" (by decide)).1
      (by intro b hb; rw [List.mem_singleton.mp hb]; decide)).1
  · have h := (deleteBooking_spec (.good ⟨[⟨"1", "Anna", "Nowak", "a@ex.pl", "123", "Masaz",
      "2025-03-10", "09:00", "", "", "iso"⟩]⟩) "1" (by decide)).2
      ⟨⟨"1", "Anna", "Nowak", "a@ex.pl", "123", "Masaz", "2025-03-10", "09:00", "", "", "iso"⟩,
        List.mem_singleton.mpr rfl, rfl⟩
    exact ⟨h.1, h.2.2⟩

/-- Counterexample to claim C6: on the one-booking sample store, deleting the
stored id while the save fails still answers `200` — the handler discards the
boolean `saveBookings` returns — so the persistence failure is not reported
as a `500`, and the persisted file still holds the booking. -/
theorem delete_save_failure_not_reported :
    (deleteBooking (.good ⟨[⟨"1", "Anna", "Nowak", "a@ex.pl", "123", "Masaz", "2025-03-10",
        "09:00", "", "", "iso"⟩]⟩) "1" false).1.statusCode = 200 ∧
    (deleteBooking (.good ⟨[⟨"1", "Anna", "Nowak", "a@ex.pl", "123", "Masaz", "2025-03-10",
        "09:00", "", "", "iso"⟩]⟩) "1" false).1.statusCode ≠ 500 ∧
    (deleteBooking (.good ⟨[⟨"1", "Anna", "Nowak", "a@ex.pl", "123", "Masaz", "2025-03-10",
        "09:00", "", "", "iso"⟩]⟩) "1" false).2 =
      .good ⟨[⟨"1", "Anna", "Nowak", "a@ex.pl", "123", "Masaz", "2025-03-10",
        "09:00", "", "", "iso"⟩]⟩ := by
  refine ⟨rfl, by decide, rfl⟩

/-- Claim C6 as amended: when persisting fails, `POST /api/bookings` (past
validation and the availability check) reports a `500` server error and
leaves the file untouched, while `DELETE /api/bookings/:id` of a stored id
ignores the failure: it still answers `200` and the file keeps its previous
content. -/
theorem save_failure_reporting (fs : FileState) (r : BookingRequest) (now : Nat)
    (nowIso : String) (cl1 cl2 : Bool) (id : String)
    (hv : missingRequired r = false)
    (ha : isTimeSlotAvailable fs r.date r.time = true)
    (hfound : ∃ b ∈ (readBookings fs).bookings, b.id = id) :
    postBooking fs r now nowIso false cl1 cl2 = ⟨.saveError, fs, []⟩ ∧
    (postBooking fs r now nowIso false cl1 cl2).resp.statusCode = 500 ∧
    (deleteBooking fs id false).1 = .deleted ∧
    (deleteBooking fs id false).1.statusCode = 200 ∧
    (deleteBooking fs id false).2 = fs := by
  have hpost : postBooking fs r now nowIso false cl1 cl2 = ⟨.saveError, fs, []⟩ := by
    simp [postBooking, hv, ha]
  rcases hfound with ⟨b, hb, hbid⟩
  have hne : (readBookings fs).bookings.findIdx? (fun b => b.id == id) ≠ none := by
    rw [Ne, List.findIdx?_eq_none_iff]
    intro hall
    have := hall b hb
    rw [hbid] at this
    simp at this
  rcases Option.ne_none_iff_exists'.mp hne with ⟨i, hi⟩
  have hdel := deleteBooking_eq_found fs id false i hi
  rw [hdel, hpost]
  exact ⟨rfl, rfl, rfl, rfl, rfl⟩

/-- Witness for the amended C6 at the one-booking sample store. -/
theorem save_failure_reporting_witness :
    (postBooking (.good ⟨[⟨"1", "Anna", "Nowak", "a@ex.pl", "123", "Masaz", "2025-03-10",
        "09:00", "", "", "iso"⟩]⟩)
      ⟨"Jan", "Kowal", "j@ex.pl", "456", "Terapia", "2025-03-11", "10:00", "", ""⟩
      7 "iso2" false true true).resp.statusCode = 500 ∧
    (deleteBooking (.good ⟨[⟨"1", "Anna", "Nowak", "a@ex.pl", "123", "Masaz", "2025-03-10",
        "09:00", "", "", "iso"⟩]⟩) "1" false).1.statusCode = 200 := by
  have h := save_failure_reporting
    (.good ⟨[⟨"1", "Anna", "Nowak", "a@ex.pl", "123", "Masaz", "2025-03-10",
      "09:00", "", "", "iso"⟩]⟩)
    ⟨"Jan", "Kowal", "j@ex.pl", "456", "Terapia", "2025-03-11", "10:00", "", ""⟩
    7 "iso2" true true "1" (by decide) (by decide)
    ⟨⟨"1", "Anna", "Nowak", "a@ex.pl", "123", "Masaz", "2025-03-10", "09:00", "", "", "iso"⟩,
      List.mem_singleton.mpr rfl, rfl⟩
  exact ⟨h.2.1, h.2.2.2.1⟩

/-! ### The (date, time) uniqueness invariant (claim C4) -/

lemma applyOp_preserves_slotUnique (fs : FileState) (op : Op)
    (h : SlotUnique (readBookings fs).bookings) :
    SlotUnique (readBookings (applyOp fs op)).bookings := by
  cases op with
  | create r now nowIso s cl1 cl2 =>
    show SlotUnique (readBookings (postBooking fs r now nowIso s cl1 cl2).fileState).bookings
    by_cases hm : missingRequired r = true
    · have : postBooking fs r now nowIso s cl1 cl2 = ⟨.validationError, fs, []⟩ := by
        simp [postBooking, hm]
      rw [this]
      exact h
    · have hm' : missingRequired r = false := Bool.eq_false_iff.mpr hm
      by_cases ha : isTimeSlotAvailable fs r.date r.time = true
      · by_cases hs : s = true
        · subst hs
          rw [postBooking_success_eq fs r now nowIso cl1 cl2 hm' ha, readBookings_good]
          unfold SlotUnique at h ⊢
          rw [List.pairwise_append]
          refine ⟨h, List.pairwise_singleton _ _, ?_⟩
          intro a hain b hbin
          rw [List.mem_singleton] at hbin
          subst hbin
          exact (isTimeSlotAvailable_iff fs r.date r.time).mp ha a hain
        · have hs' : s = false := Bool.eq_false_iff.mpr hs
          have : postBooking fs r now nowIso s cl1 cl2 = ⟨.saveError, fs, []⟩ := by
            simp [postBooking, hm', ha, hs']
          rw [this]
          exact h
      · have ha' : isTimeSlotAvailable fs r.date r.time = false := Bool.eq_false_iff.mpr ha
        have : postBooking fs r now nowIso s cl1 cl2 = ⟨.conflict, fs, []⟩ := by
          simp [postBooking, hm', ha']
        rw [this]
        exact h
  | del id s =>
    show SlotUnique (readBookings (deleteBooking fs id s).2).bookings
    cases hidx : (readBookings fs).bookings.findIdx? (fun b => b.id == id) with
    | none =>
      have : (readBookings fs).bookings.findIdx? (fun b => b.id == id) = none := hidx
      simp only [deleteBooking, this]
      exact h
    | some i =>
      rw [deleteBooking_eq_found fs id s i hidx]
      by_cases hs : s = true
      · subst hs
        rw [if_pos rfl, readBookings_good]
        exact List.Pairwise.sublist (List.eraseIdx_sublist _ i) h
      · have hs' : s = false := Bool.eq_false_iff.mpr hs
        subst hs'
        rw [if_neg (by simp)]
        exact h

/-- Claim C4: starting from any persisted state whose stored collection has
at most one booking per (date, time) pair, every sequence of sequentially
executed create and delete operations — whatever their clock readings, save
outcomes and email outcomes — preserves that invariant. -/
theorem slotUnique_preserved (fs : FileState) (ops : List Op)
    (h : SlotUnique (readBookings fs).bookings) :
    SlotUnique (readBookings (runOps fs ops)).bookings := by
  induction ops generalizing fs with
  | nil => exact h
  | cons op ops ih => exact ih (applyOp fs op) (applyOp_preserves_slotUnique fs op h)

/-- Witness for C4: a concrete three-operation run from the empty store. -/
theorem slotUnique_preserved_witness :
    SlotUnique (readBookings (.good ⟨[]⟩)).bookings ∧
    SlotUnique (readBookings (runOps (.good ⟨[]⟩)
      [.create ⟨"Anna", "Nowak", "a@ex.pl", "123", "Masaz", "2025-03-10", "09:00", "", ""⟩
        5 "iso" true true true,
       .create ⟨"Jan", "Kowal", "j@ex.pl", "456", "Terapia", "2025-03-10", "09:00", "", ""⟩
        6 "iso" true true true,
       .del "5" true])).bookings := by
  have h0 : SlotUnique (readBookings (.good ⟨[]⟩)).bookings := List.Pairwise.nil
  exact ⟨h0, slotUnique_preserved (.good ⟨[]⟩) _ h0⟩

/-! ### Unreadable store reads as empty (claim C10) -/

/-- Claim C10: `readBookings` is total — a missing, unreadable or invalid
bookings file reads as `{ bookings: [] }` — and every endpoint then behaves
exactly as over an empty stored collection: same availability answer, same
listing, same creation response and same persisted content, same deletion
response and same persisted content. -/
theorem unreadable_store_acts_empty (date id : String) (r : BookingRequest)
    (now : Nat) (nowIso : String) (s cl1 cl2 : Bool) :
    readBookings .bad = ⟨[]⟩ ∧
    getAvailableTimes .bad date = getAvailableTimes (.good ⟨[]⟩) date ∧
    listBookings .bad = listBookings (.good ⟨[]⟩) ∧
    (postBooking .bad r now nowIso s cl1 cl2).resp =
      (postBooking (.good ⟨[]⟩) r now nowIso s cl1 cl2).resp ∧
    readBookings (postBooking .bad r now nowIso s cl1 cl2).fileState =
      readBookings (postBooking (.good ⟨[]⟩) r now nowIso s cl1 cl2).fileState ∧
    (deleteBooking .bad id s).1 = (deleteBooking (.good ⟨[]⟩) id s).1 ∧
    readBookings (deleteBooking .bad id s).2 =
      readBookings (deleteBooking (.good ⟨[]⟩) id s).2 := by
  refine ⟨rfl, rfl, rfl, ?_, ?_, rfl, rfl⟩ <;>
  · by_cases hm : missingRequired r = true
    · simp [postBooking, hm, readBookings]
    · have hm' : missingRequired r = false := Bool.eq_false_iff.mpr hm
      by_cases hs : s = true
      · subst hs
        rw [postBooking_success_eq .bad r now nowIso cl1 cl2 hm' rfl,
          postBooking_success_eq (.good ⟨[]⟩) r now nowIso cl1 cl2 hm' rfl]
        try rfl
      · have hs' : s = false := Bool.eq_false_iff.mpr hs
        subst hs'
        have h1 : postBooking .bad r now nowIso false cl1 cl2 = ⟨.saveError, .bad, []⟩ := by
          simp [postBooking, hm']
          rfl
        have h2 : postBooking (.good ⟨[]⟩) r now nowIso false cl1 cl2 =
            ⟨.saveError, .good ⟨[]⟩, []⟩ := by
          simp [postBooking, hm']
          rfl
        rw [h1, h2]
        try rfl

/-! ### Booking id generation (claim C9)

The handler generates ids as `Date.now().toString()`. Two creations inside
the same millisecond read the same clock value and therefore get the same
id; distinct clock readings give distinct decimal strings. The injectivity
of the decimal rendering is proved below via `Nat.digits`. -/

lemma toDigitsCore_eq_digits (fuel : Nat) : ∀ (n : Nat) (acc : List Char),
    0 < n → n ≤ fuel →
    Nat.toDigitsCore 10 fuel n acc = ((Nat.digits 10 n).map Nat.digitChar).reverse ++ acc := by
  induction fuel with
  | zero => intro n acc hn hf; omega
  | succ fuel ih =>
    intro n acc hn hf
    simp only [Nat.toDigitsCore]
    by_cases h : n / 10 = 0
    · rw [if_pos h]
      have hn10 : n < 10 := by
        rcases Nat.lt_or_ge n 10 with h10 | h10
        · exact h10
        · exfalso
          have : 0 < n / 10 := Nat.div_pos h10 (by norm_num)
          omega
      rw [Nat.digits_of_lt 10 n (by omega) hn10, Nat.mod_eq_of_lt hn10]
      rfl
    · rw [if_neg h]
      have h1 : 0 < n / 10 := Nat.pos_of_ne_zero h
      have h2 : n / 10 ≤ fuel := by
        have : n / 10 < n := Nat.div_lt_self hn (by norm_num)
        omega
      rw [ih (n / 10) (Nat.digitChar (n % 10) :: acc) h1 h2]
      rw [Nat.digits_def' (by norm_num : (1 : ℕ) < 10) hn]
      rw [List.map_cons, List.reverse_cons, List.append_assoc]
      rfl

lemma toDigits_eq_digits (n : Nat) :
    Nat.toDigits 10 n =
      if n = 0 then ['0'] else ((Nat.digits 10 n).map Nat.digitChar).reverse := by
  by_cases h : n = 0
  · subst h
    rfl
  · rw [if_neg h]
    have := toDigitsCore_eq_digits (n + 1) n [] (Nat.pos_of_ne_zero h) (by omega)
    unfold Nat.toDigits
    rw [this, List.append_nil]

lemma digitChar_inj_lt10 : ∀ a < 10, ∀ b < 10,
    Nat.digitChar a = Nat.digitChar b → a = b := by
  decide

lemma map_digitChar_inj : ∀ (l1 l2 : List Nat),
    (∀ x ∈ l1, x < 10) → (∀ x ∈ l2, x < 10) →
    l1.map Nat.digitChar = l2.map Nat.digitChar → l1 = l2 := by
  intro l1
  induction l1 with
  | nil =>
    intro l2 _ _ h
    cases l2 with
    | nil => rfl
    | cons b t2 => simp at h
  | cons a t ih =>
    intro l2 h1 h2 h
    cases l2 with
    | nil => simp at h
    | cons b t2 =>
      rw [List.map_cons, List.map_cons] at h
      injection h with hh ht
      have ha := h1 a (List.mem_cons_self a t)
      have hb := h2 b (List.mem_cons_self b t2)
      rw [digitChar_inj_lt10 a ha b hb hh,
        ih t2 (fun x hx => h1 x (List.mem_cons_of_mem _ hx))
          (fun x hx => h2 x (List.mem_cons_of_mem _ hx)) ht]

lemma digits_map_digitChar_eq_zero_char {n : Nat} (hn : n ≠ 0)
    (h : (Nat.digits 10 n).map Nat.digitChar = ['0']) : False := by
  have h0 : (['0'] : List Char) = ([0] : List Nat).map Nat.digitChar := rfl
  rw [h0] at h
  have := map_digitChar_inj (Nat.digits 10 n) [0]
    (fun x hx => Nat.digits_lt_base (by norm_num) hx)
    (by intro x hx; rw [List.mem_singleton.mp hx]; norm_num) h
  have hofd := Nat.ofDigits_digits 10 n
  rw [this] at hofd
  simp [Nat.ofDigits] at hofd
  exact hn hofd.symm

lemma natToString_inj {m n : Nat} (h : toString m = toString n) : m = n := by
  have hrepr : Nat.repr m = Nat.repr n := h
  have hd : Nat.toDigits 10 m = Nat.toDigits 10 n := by
    have hstr : (Nat.toDigits 10 m).asString = (Nat.toDigits 10 n).asString := hrepr
    simpa [List.asString] using congrArg String.data hstr
  rw [toDigits_eq_digits, toDigits_eq_digits] at hd
  by_cases hm : m = 0 <;> by_cases hn : n = 0
  · rw [hm, hn]
  · exfalso
    rw [if_pos hm, if_neg hn] at hd
    have : (Nat.digits 10 n).map Nat.digitChar = ['0'] := by
      have := congrArg List.reverse hd
      simpa using this.symm
    exact digits_map_digitChar_eq_zero_char hn this
  · exfalso
    rw [if_neg hm, if_pos hn] at hd
    have : (Nat.digits 10 m).map Nat.digitChar = ['0'] := by
      have := congrArg List.reverse hd
      simpa using this
    exact digits_map_digitChar_eq_zero_char hm this
  · rw [if_neg hm, if_neg hn] at hd
    have hmap : (Nat.digits 10 m).map Nat.digitChar = (Nat.digits 10 n).map Nat.digitChar :=
      List.reverse_injective hd
    have hdig := map_digitChar_inj (Nat.digits 10 m) (Nat.digits 10 n)
      (fun x hx => Nat.digits_lt_base (by norm_num) hx)
      (fun x hx => Nat.digits_lt_base (by norm_num) hx) hmap
    exact Nat.digits_inj_iff.mp hdig

lemma postBooking_created_id (fs : FileState) (r : BookingRequest) (now : Nat)
    (nowIso : String) (s cl1 cl2 : Bool) (v : ConfirmationView)
    (h : (postBooking fs r now nowIso s cl1 cl2).resp = .created v) :
    v.id = toString now := by
  by_cases hm : missingRequired r = true
  · have : postBooking fs r now nowIso s cl1 cl2 = ⟨.validationError, fs, []⟩ := by
      simp [postBooking, hm]
    rw [this] at h
    exact absurd h (by simp)
  · have hm' : missingRequired r = false := Bool.eq_false_iff.mpr hm
    by_cases ha : isTimeSlotAvailable fs r.date r.time = true
    · by_cases hs : s = true
      · subst hs
        rw [postBooking_success_eq fs r now nowIso cl1 cl2 hm' ha] at h
        have hv := CreateResp.created.inj h
        rw [← hv]
      · have hs' : s = false := Bool.eq_false_iff.mpr hs
        subst hs'
        have : postBooking fs r now nowIso false cl1 cl2 = ⟨.saveError, fs, []⟩ := by
          simp [postBooking, hm', ha]
        rw [this] at h
        exact absurd h (by simp)
    · have ha' : isTimeSlotAvailable fs r.date r.time = false := Bool.eq_false_iff.mpr ha
      have : postBooking fs r now nowIso s cl1 cl2 = ⟨.conflict, fs, []⟩ := by
        simp [postBooking, hm', ha']
      rw [this] at h
      exact absurd h (by simp)

/-- First creation of the counterexample run: clock reading 5. -/
def c9req1 : BookingRequest :=
  ⟨"Anna", "Nowak", "a@ex.pl", "123", "Masaz", "2025-03-10", "09:00", "", ""⟩

/-- Second creation of the counterexample run: a different slot, but the same
clock reading 5 (same millisecond). -/
def c9req2 : BookingRequest :=
  ⟨"Jan", "Kowal", "j@ex.pl", "456", "Terapia", "2025-03-10", "10:00", "", ""⟩

/-- Counterexample to claim C9 as stated: two sequential successful creations
(both 201) within the same `Date.now()` millisecond yield two distinct stored
bookings that share the id string "5" — ids are not unique across the stored
collection. -/
theorem duplicate_ids_same_millisecond :
    (postBooking (.good ⟨[]⟩) c9req1 5 "i" true true true).resp.statusCode = 201 ∧
    (postBooking (applyOp (.good ⟨[]⟩) (.create c9req1 5 "i" true true true))
        c9req2 5 "i" true true true).resp.statusCode = 201 ∧
    (listBookings (runOps (.good ⟨[]⟩)
        [.create c9req1 5 "i" true true true,
         .create c9req2 5 "i" true true true])).length = 2 ∧
    (listBookings (runOps (.good ⟨[]⟩)
        [.create c9req1 5 "i" true true true,
         .create c9req2 5 "i" true true true]))[0]? ≠
      (listBookings (runOps (.good ⟨[]⟩)
        [.create c9req1 5 "i" true true true,
         .create c9req2 5 "i" true true true]))[1]? ∧
    (listBookings (runOps (.good ⟨[]⟩)
        [.create c9req1 5 "i" true true true,
         .create c9req2 5 "i" true true true])).map Booking.id = ["5", "5"] := by
  decide

/-- Claim C9 as amended: any two bookings created by `POST /api/bookings` at
distinct `Date.now()` readings carry distinct id strings; only creations
within the same millisecond (equal readings) can collide. -/
theorem created_ids_distinct (fs1 fs2 : FileState) (r1 r2 : BookingRequest)
    (n1 n2 : Nat) (iso1 iso2 : String) (s1 s2 a1 a2 b1 b2 : Bool)
    (v1 v2 : ConfirmationView)
    (h1 : (postBooking fs1 r1 n1 iso1 s1 a1 b1).resp = .created v1)
    (h2 : (postBooking fs2 r2 n2 iso2 s2 a2 b2).resp = .created v2)
    (hn : n1 ≠ n2) : v1.id ≠ v2.id := by
  rw [postBooking_created_id fs1 r1 n1 iso1 s1 a1 b1 v1 h1,
    postBooking_created_id fs2 r2 n2 iso2 s2 a2 b2 v2 h2]
  intro hid
  exact hn (natToString_inj hid)

/-- Witness for the amended C9: creations at clock readings 1 and 2. -/
theorem created_ids_distinct_witness :
    ((postBooking (.good ⟨[]⟩) c9req1 1 "i" true true true).resp =
      .created ⟨toString 1, "2025-03-10", "09:00", "Masaz"⟩) ∧
    ((postBooking (.good ⟨[]⟩) c9req2 2 "i" true true true).resp =
      .created ⟨toString 2, "2025-03-10", "10:00", "Terapia"⟩) ∧
    (1 : Nat) ≠ 2 ∧
    (⟨toString 1, "2025-03-10", "09:00", "Masaz"⟩ : ConfirmationView).id ≠
      (⟨toString 2, "2025-03-10", "10:00", "Terapia"⟩ : ConfirmationView).id := by
  refine ⟨by decide, by decide, by decide, ?_⟩
  exact created_ids_distinct (.good ⟨[]⟩) (.good ⟨[]⟩) c9req1 c9req2 1 2 "i" "i"
    true true true true true true _ _ (by decide) (by decide) (by decide)

end Harmonia
